import Mathlib

/-!
Shallow embedding of `src/rl4co/models/zoo/am/decoder.py` (the auto-regressive
Attention-Model decoder with POMO-style multi-start support), together with
theorems checking the module's specification against the code.

Modelling conventions:

* Tensors are records of explicit dimensions plus a total entry function over
  `Nat` indices, with rational values standing in for floats (the spec treats
  the numeric attention kernel as an external collaborator, so no floating
  point behaviour is claimed).
* External collaborators (the environment, the context embedder, the dynamic
  embedder, the `LogitAttention` scoring unit, `decode_probs` and the start-node
  seeding policy) are fields of an `Ext` record and universally quantified in
  the theorems; shape contracts they are documented to satisfy appear as
  explicit hypotheses.
* `batchify` / `unbatchify` / `select_start_nodes` live in `rl4co.utils.ops`,
  which is not part of the given sources; they are modelled from the spec
  (starts-major replication / unfolding, distinct start node per rollout).
* For `num_starts ≤ 1` the source keeps tensors two-dimensional and only
  inserts a singleton axis via `glimpse_q.unsqueeze(1)`; the embedding keeps a
  uniform three-dimensional representation whose middle (starts) axis has
  extent 1 in that case, and `collapse13` drops it where the source returns a
  2-D tensor.
* The Python `while` loop is modelled with explicit fuel; running out of fuel
  is a distinguished outcome (`FwdResult.fuelOut`), which never occurs in the
  source only because the environment is trusted to terminate.
-/

set_option maxHeartbeats 1000000

namespace AMDecoder

/-- A 2-D tensor: explicit shape plus a total entry function. -/
structure T2 (α : Type) where
  d0 : Nat
  d1 : Nat
  ent : Nat → Nat → α

/-- A 3-D tensor: explicit shape plus a total entry function. -/
structure T3 (α : Type) where
  d0 : Nat
  d1 : Nat
  d2 : Nat
  ent : Nat → Nat → Nat → α

/-- Default 2-D tensor (used only as the `List.getD` fallback). -/
def defaultT2 : T2 ℚ := ⟨0, 0, fun _ _ => 0⟩

/-- Elementwise map over a 2-D tensor (models `tensor.exp()` etc.). -/
def t2map (f : ℚ → ℚ) (x : T2 ℚ) : T2 ℚ :=
  ⟨x.d0, x.d1, fun i j => f (x.ent i j)⟩

/-- Elementwise addition of 3-D tensors (shapes agree at every use site in the
source, so the result carries the left operand's shape). -/
def t3add (x y : T3 ℚ) : T3 ℚ :=
  ⟨x.d0, x.d1, x.d2, fun a b c => x.ent a b c + y.ent a b c⟩

/-- The TensorDict state `td`: the named tensors of the live instance batch
that the decoder reads (`action_mask`, `done`) or writes (`action`, `reward`).
Environment-specific extra fields are reachable only through the external
collaborators, which receive the whole state. -/
structure TD where
  batch : Nat
  nodes : Nat
  action_mask : Nat → Nat → Bool
  done : Nat → Bool
  action : Nat → Nat
  reward : Nat → ℚ

/-- `td.set("action", a)`. -/
def TD.setAction (td : TD) (a : Nat → Nat) : TD := { td with action := a }

/-- `td.set("reward", r)`. -/
def TD.setReward (td : TD) (r : Nat → ℚ) : TD := { td with reward := r }

/-- `td["done"].all()`. -/
def allDone (td : TD) : Bool := (List.range td.batch).all td.done

/-- The unbatchified view of the state, indexed `[batch, starts, ...]`. -/
structure TDU where
  batch : Nat
  starts : Nat
  nodes : Nat
  action_mask : Nat → Nat → Nat → Bool
  done : Nat → Nat → Bool
  action : Nat → Nat → Nat

/-- Modelled from the spec: `batchify` (`rl4co.utils.ops`, not under the given
sources) replicates each instance `n` times along the batch dimension with
starts-major ordering (flat index `s * B + b` holds a copy of instance `b`),
and is a no-op for expansion factor 0 or 1. -/
def batchifyTD (td : TD) (n : Nat) : TD :=
  if n ≤ 1 then td
  else
    { batch := n * td.batch
      nodes := td.nodes
      action_mask := fun i j => td.action_mask (i % td.batch) j
      done := fun i => td.done (i % td.batch)
      action := fun i => td.action (i % td.batch)
      reward := fun i => td.reward (i % td.batch) }

/-- Modelled from the spec: `unbatchify` (`rl4co.utils.ops`) reshapes the flat
starts-major batch `(n*B, ...)` into the view `(B, n, ...)` where entry
`(b, s)` is flat row `s * B + b`; it is a no-op for expansion factor 0 or 1
(the singleton starts axis of the view then merely reflects the
`unsqueeze(1)` the source performs on the query). -/
def unbatchifyTD (td : TD) (n : Nat) : TDU :=
  if n ≤ 1 then
    { batch := td.batch, starts := 1, nodes := td.nodes
      action_mask := fun b _ j => td.action_mask b j
      done := fun b _ => td.done b
      action := fun b _ => td.action b }
  else
    { batch := td.batch / n, starts := n, nodes := td.nodes
      action_mask := fun b s j => td.action_mask (s * (td.batch / n) + b) j
      done := fun b s => td.done (s * (td.batch / n) + b)
      action := fun b s => td.action (s * (td.batch / n) + b) }

/-- Modelled from the spec: `batchify` on a plain `(B, d)` tensor. -/
def batchifyT2 (x : T2 ℚ) (n : Nat) : T2 ℚ :=
  if n ≤ 1 then x else ⟨n * x.d0, x.d1, fun i d => x.ent (i % x.d0) d⟩

/-- Modelled from the spec: `unbatchify` on a plain tensor, producing the
`(B, n, d)` view (with a singleton starts axis when `n ≤ 1`). -/
def unbatchifyT2 (x : T2 ℚ) (n : Nat) : T3 ℚ :=
  if n ≤ 1 then ⟨x.d0, 1, x.d1, fun b _ d => x.ent b d⟩
  else ⟨x.d0 / n, n, x.d1, fun b s d => x.ent (s * (x.d0 / n) + b) d⟩

/-- einops `rearrange(t, "b s l -> (s b) l")`: fold the starts axis into the
batch axis, starts-major (output row `s * B + b` is input entry `(b, s)`). -/
def rearrangeFold {α : Type} (t : T3 α) : T2 α :=
  ⟨t.d0 * t.d1, t.d2, fun i l => t.ent (i % t.d0) (i / t.d0) l⟩

/-- View a `(b, 1, l)` tensor as `(b, l)`: for `num_starts ≤ 1` the source has
no starts axis at all, so the uniform 3-D representation drops the singleton
axis where the source returns the tensor unchanged. -/
def collapse13 {α : Type} (t : T3 α) : T2 α :=
  ⟨t.d0, t.d2, fun b l => t.ent b 0 l⟩

/-- The learned parameters of the decoder that the modelled fragment uses:
the two bias-free linear layers from `Decoder.__init__`
(`project_node_embeddings : Linear(D, 3*D, bias=False)` and
`project_fixed_context : Linear(D, D, bias=False)`). -/
structure DecoderParams where
  embedding_dim : Nat
  Wnode : Nat → Nat → ℚ
  Wctx : Nat → Nat → ℚ

/-- A bias-free linear layer: output coordinate `o` is `∑ d < inDim, W o d * x d`. -/
def linearNoBias (inDim : Nat) (W : Nat → Nat → ℚ) (x : Nat → ℚ) : Nat → ℚ :=
  fun o => Finset.sum (Finset.range inDim) (fun d => W o d * x d)

/-- `self.project_node_embeddings(embeddings)`: the single bias-free projection
from width `D` to width `3*D`, applied per node. -/
def project_node_embeddings (P : DecoderParams) (emb : T3 ℚ) : T3 ℚ :=
  ⟨emb.d0, emb.d1, 3 * P.embedding_dim,
    fun b nd => linearNoBias P.embedding_dim P.Wnode (emb.ent b nd)⟩

/-- `.chunk(3, dim=-1)`: the `j`-th of three equal-width chunks along the last
axis. -/
def chunk3 (t : T3 ℚ) (width j : Nat) : T3 ℚ :=
  ⟨t.d0, t.d1, width, fun b nd d => t.ent b nd (j * width + d)⟩

/-- `embeddings.mean(1)`: average over the node axis. -/
def meanNodes (emb : T3 ℚ) : T2 ℚ :=
  ⟨emb.d0, emb.d2,
    fun b d => (Finset.sum (Finset.range emb.d1) (fun nd => emb.ent b nd d)) / (emb.d1 : ℚ)⟩

/-- `self.project_fixed_context(x)`: bias-free `D → D` projection per instance. -/
def project_fixed_context (P : DecoderParams) (x : T2 ℚ) : T2 ℚ :=
  ⟨x.d0, P.embedding_dim, fun b => linearNoBias P.embedding_dim P.Wctx (x.ent b)⟩

/-- The `PrecomputedCache` dataclass. -/
structure PrecomputedCache where
  node_embeddings : T3 ℚ
  graph_context : T3 ℚ
  glimpse_key : T3 ℚ
  glimpse_val : T3 ℚ
  logit_key : T3 ℚ

/-- `Decoder._precompute`: project the node embeddings once, chunk into
glimpse key / glimpse value / logit key, and compute the graph context by
projecting the node-mean (batchify/unbatchify is a replicate-then-view no-op
recomputing nothing). -/
def _precompute (P : DecoderParams) (emb : T3 ℚ) (num_starts : Nat) : PrecomputedCache :=
  let proj := project_node_embeddings P emb
  let glimpse_key_fixed := chunk3 proj P.embedding_dim 0
  let glimpse_val_fixed := chunk3 proj P.embedding_dim 1
  let logit_key_fixed := chunk3 proj P.embedding_dim 2
  let graph_context :=
    unbatchifyT2 (batchifyT2 (project_fixed_context P (meanNodes emb)) num_starts) num_starts
  { node_embeddings := emb
    graph_context := graph_context
    glimpse_key := glimpse_key_fixed
    glimpse_val := glimpse_val_fixed
    logit_key := logit_key_fixed }

/-- The external collaborators of the decoder (spec §6): the environment, the
step-context builder, the dynamic embedder, the attention scoring unit, the
exponential of the numeric kernel, the action-selection policy and the
start-node seeding policy.  All are arbitrary; contracts they are documented
to satisfy appear as hypotheses of individual theorems. -/
structure Ext where
  context : T3 ℚ → TDU → T3 ℚ
  dyn : TDU → T3 ℚ × T3 ℚ × T3 ℚ
  attn : T3 ℚ → T3 ℚ → T3 ℚ → T3 ℚ → T3 Bool → Option ℚ → T3 ℚ
  expQ : ℚ → ℚ
  decodeProbs : T2 ℚ → T2 Bool → String → (Nat → Nat)
  selectStartNodes : TD → Nat → (Nat → Nat)
  step : TD → TD
  getReward : TD → T2 Nat → (Nat → ℚ)

/-- `Decoder._get_log_p` up to (and excluding) the final fold: unbatchify the
state, build the glimpse query from the step context plus the cached graph
context, add the dynamic corrections to the cached keys/values, negate the
environment's `action_mask`, and invoke the attention unit. -/
def getLogPPre (E : Ext) (cached : PrecomputedCache) (td : TD) (softmax_temp : Option ℚ)
    (num_starts : Nat) : T3 ℚ × T3 Bool :=
  let td_unbatch := unbatchifyTD td num_starts
  let step_context := E.context cached.node_embeddings td_unbatch
  let glimpse_q := t3add step_context cached.graph_context
  let dyn := E.dyn td_unbatch
  let glimpse_k := t3add cached.glimpse_key dyn.1
  let glimpse_v := t3add cached.glimpse_val dyn.2.1
  let logit_k := t3add cached.logit_key dyn.2.2
  let mask : T3 Bool :=
    ⟨td_unbatch.batch, td_unbatch.starts, td_unbatch.nodes,
      fun b s l => ! td_unbatch.action_mask b s l⟩
  let log_p := E.attn glimpse_q glimpse_k glimpse_v logit_k mask softmax_temp
  (log_p, mask)

/-- `Decoder._get_log_p`: the scores and mask of `getLogPPre`, folded
starts-major into the flat batch when `num_starts > 1` (and returned with the
source's 2-D shape otherwise). -/
def getLogP (E : Ext) (cached : PrecomputedCache) (td : TD) (softmax_temp : Option ℚ)
    (num_starts : Nat) : T2 ℚ × T2 Bool :=
  let pre := getLogPPre E cached td softmax_temp num_starts
  if 1 < num_starts then (rearrangeFold pre.1, rearrangeFold pre.2)
  else (collapse13 pre.1, collapse13 pre.2)

/-- Python `pattern in s` (substring containment) on character lists. -/
def subAux (p : List Char) : List Char → Bool
  | [] => p.isEmpty
  | c :: rest => p.isPrefixOf (c :: rest) || subAux p rest

/-- Python `pattern in s` on strings. -/
def strContains (s pat : String) : Bool := subAux pat.data s.data

/-- The mutable data of one iteration of the decode loop: the cache the body
reads, the live state, and the accumulated `(log_p, action)` trace. -/
structure LoopSt where
  cached : PrecomputedCache
  td : TD
  outputs : List (T2 ℚ)
  actions : List (Nat → Nat)

/-- One iteration of the `while not td["done"].all()` body: score, select via
`decode_probs` on the exponentiated scores, write the action, step the
environment, append `(log_p, action)` to the trace. -/
def loopBody (E : Ext) (decode_type : String) (softmax_temp : Option ℚ) (num_starts : Nat)
    (st : LoopSt) : LoopSt :=
  let lpm := getLogP E st.cached st.td softmax_temp num_starts
  let action := E.decodeProbs (t2map E.expQ lpm.1) lpm.2 decode_type
  let td1 := E.step (st.td.setAction action)
  ⟨st.cached, td1, st.outputs ++ [lpm.1], st.actions ++ [action]⟩

/-- The fueled decode loop: stop when all trajectories are done, diverge
(`none`) if the fuel runs out first. -/
def decodeLoop (E : Ext) (decode_type : String) (softmax_temp : Option ℚ) (num_starts : Nat) :
    Nat → LoopSt → Option LoopSt
  | 0, st => if allDone st.td then some st else none
  | fuel + 1, st =>
    if allDone st.td then some st
    else decodeLoop E decode_type softmax_temp num_starts fuel
      (loopBody E decode_type softmax_temp num_starts st)

/-- Like `decodeLoop` but returning the number of iterations executed. -/
def loopIters (E : Ext) (decode_type : String) (softmax_temp : Option ℚ) (num_starts : Nat) :
    Nat → LoopSt → Option Nat
  | 0, st => if allDone st.td then some 0 else none
  | fuel + 1, st =>
    if allDone st.td then some 0
    else (loopIters E decode_type softmax_temp num_starts fuel
      (loopBody E decode_type softmax_temp num_starts st)).map (· + 1)

/-- The state entering the main loop of `Decoder.forward`: the precomputed
cache, plus the multi-start seeding stage when `num_starts > 1` or the decode
type requests multi-start — select the start nodes on the original state,
replicate the state, apply the seed action as an environment transition, and
record the seed action together with a zero log-probability tensor shaped like
the post-transition `action_mask` (a zero log-probability, so probability 1;
in the source the boolean zeros are promoted to floats when stacked). -/
def initialState (E : Ext) (P : DecoderParams) (td : TD) (emb : T3 ℚ) (decode_type : String)
    (num_starts : Nat) : LoopSt :=
  let cached := _precompute P emb num_starts
  if decide (1 < num_starts) || strContains decode_type "multistart" then
    let action := E.selectStartNodes td num_starts
    let td2 := E.step ((batchifyTD td num_starts).setAction action)
    let log_p : T2 ℚ := ⟨td2.batch, td2.nodes, fun _ _ => 0⟩
    ⟨cached, td2, [log_p], [action]⟩
  else ⟨cached, td, [], []⟩

/-- `torch.stack(outputs, 1)` over the per-step score tensors. -/
def stackOutputs (l : List (T2 ℚ)) : T3 ℚ :=
  ⟨(l.headD defaultT2).d0, l.length, (l.headD defaultT2).d1,
    fun b k nd => (l.getD k defaultT2).ent b nd⟩

/-- `torch.stack(actions, 1)` over the per-step action tensors (the batch
extent is the one common to all entries, read off the final state). -/
def stackActions (B : Nat) (l : List (Nat → Nat)) : T2 Nat :=
  ⟨B, l.length, fun b k => l.getD k (fun _ => 0) b⟩

/-- The outcome of `Decoder.forward`: assertion failure, fuel exhaustion
(impossible in the source, where the loop is unbounded), or the stacked
log-probabilities, stacked actions and final state. -/
inductive FwdResult where
  | err : String → FwdResult
  | fuelOut : FwdResult
  | ok : T3 ℚ → T2 Nat → TD → FwdResult

/-- `Decoder.forward`: normalize `num_starts`, assert the multi-start
configuration, precompute and seed (`initialState`), run the decode loop,
stack the trace, and optionally attach the environment's reward. -/
def forward (E : Ext) (P : DecoderParams) (td : TD) (emb : T3 ℚ) (decode_type : String)
    (softmax_temp : Option ℚ) (num_starts? : Option Nat) (calc_reward : Bool)
    (fuel : Nat) : FwdResult :=
  let num_starts := num_starts?.getD 0
  if strContains decode_type "multistart" && decide (num_starts ≤ 1) then
    .err "Multi-start decoding requires num_starts > 1"
  else
    match decodeLoop E decode_type softmax_temp num_starts fuel
        (initialState E P td emb decode_type num_starts) with
    | none => .fuelOut
    | some st =>
      let outputs := stackOutputs st.outputs
      let actions := stackActions st.td.batch st.actions
      let tdf := if calc_reward then st.td.setReward (E.getReward st.td actions) else st.td
      .ok outputs actions tdf

/-! ### Concrete instances used by the witnesses -/

/-- Tiny parameter set: embedding width 1, all weights 1. -/
def toyP : DecoderParams := ⟨1, fun _ _ => 1, fun _ _ => 1⟩

/-- Tiny embedding batch: one instance, one node, width 1. -/
def toyEmb : T3 ℚ := ⟨1, 1, 1, fun _ _ _ => 1⟩

/-- One instance, two nodes, not yet done. -/
def toyTD : TD := ⟨1, 2, fun _ _ => true, fun _ => false, fun _ => 0, fun _ => 0⟩

/-- Two instances, two nodes, a non-constant action mask. -/
def toyTD2 : TD := ⟨2, 2, fun i j => decide (i = j), fun _ => false, fun _ => 0, fun _ => 0⟩

/-- Concrete collaborators: shape-respecting zero context/scores, a seeding
policy that starts rollout `s` of every instance at node `s` (starts-major,
matching the layout of `batchify`), and an environment whose transition marks
every trajectory done. -/
def toyE : Ext where
  context := fun _ tdU => ⟨tdU.batch, tdU.starts, 1, fun _ _ _ => 0⟩
  dyn := fun tdU =>
    (⟨tdU.batch, tdU.nodes, 1, fun _ _ _ => 0⟩,
     ⟨tdU.batch, tdU.nodes, 1, fun _ _ _ => 0⟩,
     ⟨tdU.batch, tdU.nodes, 1, fun _ _ _ => 0⟩)
  attn := fun q _ _ _ m _ => ⟨q.d0, q.d1, m.d2, fun _ _ _ => 0⟩
  expQ := id
  decodeProbs := fun _ _ _ => fun _ => 0
  selectStartNodes := fun td _ => fun i => i / td.batch
  step := fun td => { td with done := fun _ => true }
  getReward := fun _ _ => fun _ => 0

/-! ### Index arithmetic of the starts-major fold -/

theorem foldIdx_mod (B s b : Nat) (hb : b < B) : (s * B + b) % B = b := by
  rw [Nat.mul_comm s B, Nat.mul_add_mod, Nat.mod_eq_of_lt hb]

theorem foldIdx_div (B s b : Nat) (hb : b < B) : (s * B + b) / B = s := by
  have hB : 0 < B := Nat.lt_of_le_of_lt (Nat.zero_le b) hb
  rw [Nat.mul_comm s B, Nat.mul_add_div hB, Nat.div_eq_of_lt hb, Nat.add_zero]

/-! ### Claims -/

/-- C1: for every state `td` and every decoding step, the mask returned by
`_get_log_p` is the elementwise logical negation of the environment-provided
`action_mask` of the unbatchified view of the state: the entry at flat row
`s * B + b` (plain row `b` when `num_starts ≤ 1`, where `starts = 1` forces
`s = 0`) and column `l` is the negation of `action_mask b s l`. -/
theorem C1_mask_is_negated_action_mask (E : Ext) (C : PrecomputedCache) (td : TD)
    (temp : Option ℚ) (n b s l : Nat)
    (hb : b < (unbatchifyTD td n).batch) (hs : s < (unbatchifyTD td n).starts) :
    ((getLogP E C td temp n).2).ent (s * (unbatchifyTD td n).batch + b) l
      = ! (unbatchifyTD td n).action_mask b s l := by
  by_cases hn : 1 < n
  · simp only [getLogP, getLogPPre, if_pos hn, rearrangeFold,
      foldIdx_mod _ s b hb, foldIdx_div _ s b hb]
  · have hs1 : (unbatchifyTD td n).starts = 1 := by
      simp [unbatchifyTD, Nat.not_lt.mp hn]
    have hs0 : s = 0 := Nat.lt_one_iff.mp (hs1 ▸ hs)
    subst hs0
    simp only [getLogP, getLogPPre, if_neg hn, collapse13, Nat.zero_mul, Nat.zero_add]

/-- C1 witness at a concrete input. -/
theorem C1_mask_is_negated_action_mask_witness :
    ((getLogP toyE (_precompute toyP toyEmb 2) toyTD2 none 2).2).ent 1 1 = false := by
  have h := C1_mask_is_negated_action_mask toyE (_precompute toyP toyEmb 2) toyTD2
    none 2 0 1 1 (by decide) (by decide)
  simpa [unbatchifyTD, toyTD2] using h

/-- C2: whenever `num_starts > 1`, the scores and mask that `_get_log_p`
returns are the pre-fold tensors of shape `(batch, starts, nodes)` reordered
into shape `(starts * batch, nodes)` with starts-major ordering: row
`s * batch + b` of the output is entry `(b, s)` of the pre-fold tensor, so the
rollout index varies slower than the original-instance index (the pre-fold
mask has `batch = td.batch / num_starts` and `starts = num_starts`). -/
theorem C2_multistart_starts_major_fold (E : Ext) (C : PrecomputedCache) (td : TD)
    (temp : Option ℚ) (n b bm s l lm : Nat) (hn : 1 < n)
    (hb : b < ((getLogPPre E C td temp n).1).d0)
    (hbm : bm < ((getLogPPre E C td temp n).2).d0) :
    ((getLogP E C td temp n).1).d0
        = ((getLogPPre E C td temp n).1).d1 * ((getLogPPre E C td temp n).1).d0
      ∧ ((getLogP E C td temp n).2).d0
        = ((getLogPPre E C td temp n).2).d1 * ((getLogPPre E C td temp n).2).d0
      ∧ ((getLogP E C td temp n).1).ent (s * ((getLogPPre E C td temp n).1).d0 + b) l
        = ((getLogPPre E C td temp n).1).ent b s l
      ∧ ((getLogP E C td temp n).2).ent (s * ((getLogPPre E C td temp n).2).d0 + bm) lm
        = ((getLogPPre E C td temp n).2).ent bm s lm
      ∧ ((getLogPPre E C td temp n).2).d0 = td.batch / n
      ∧ ((getLogPPre E C td temp n).2).d1 = n := by
  refine ⟨?_, ?_, ?_, ?_, ?_, ?_⟩
  · simp only [getLogP, if_pos hn, rearrangeFold, Nat.mul_comm]
  · simp only [getLogP, if_pos hn, rearrangeFold, Nat.mul_comm]
  · simp only [getLogP, if_pos hn, rearrangeFold, foldIdx_mod _ s b hb, foldIdx_div _ s b hb]
  · simp only [getLogP, if_pos hn, rearrangeFold, foldIdx_mod _ s bm hbm, foldIdx_div _ s bm hbm]
  · simp [getLogPPre, unbatchifyTD, Nat.not_le.mpr hn]
  · simp [getLogPPre, unbatchifyTD, Nat.not_le.mpr hn]

/-- C2 witness at a concrete input. -/
theorem C2_multistart_starts_major_fold_witness :
    ((getLogP toyE (_precompute toyP toyEmb 2) toyTD2 none 2).1).d0 = 2
      ∧ ((getLogP toyE (_precompute toyP toyEmb 2) toyTD2 none 2).1).ent 1 1 = 0 := by
  have h := C2_multistart_starts_major_fold toyE (_precompute toyP toyEmb 2) toyTD2
    none 2 0 0 1 1 1 (by decide) (by decide) (by decide)
  exact ⟨by simpa [getLogPPre, unbatchifyTD, t3add, toyE, toyTD2] using h.1,
    by simpa [getLogPPre, unbatchifyTD, t3add, toyE, toyTD2] using h.2.2.1⟩

/-- C3: requesting a decode type that contains the multi-start flag together
with `num_starts ≤ 1` (with `None` normalized to 0) makes `forward` fail fast
with the configuration error; the result is this error for every choice of
collaborators, parameters, state, embeddings and fuel, so no tensor
computation can influence it. -/
theorem C3_multistart_requires_num_starts (E : Ext) (P : DecoderParams) (td : TD)
    (emb : T3 ℚ) (dt : String) (temp : Option ℚ) (ns? : Option Nat) (cr : Bool)
    (fuel : Nat) (hm : strContains dt "multistart" = true) (hn : ns?.getD 0 ≤ 1) :
    forward E P td emb dt temp ns? cr fuel
      = .err "Multi-start decoding requires num_starts > 1" := by
  unfold forward
  simp [hm, hn]

/-- C3 witness at a concrete input (the flag is present and `num_starts = 1`). -/
theorem C3_multistart_requires_num_starts_witness :
    strContains "multistart_sampling" "multistart" = true
      ∧ forward toyE toyP toyTD toyEmb "multistart_sampling" none (some 1) true 3
          = .err "Multi-start decoding requires num_starts > 1" :=
  ⟨by decide,
    C3_multistart_requires_num_starts toyE toyP toyTD toyEmb "multistart_sampling"
      none (some 1) true 3 (by decide) (by decide)⟩

/-- C10: calling `forward` with `num_starts = None` behaves identically to
calling it with `num_starts = 0`: `None` is normalized to 0 before any use, so
the two calls return the same result for every input. -/
theorem C10_none_num_starts_is_zero (E : Ext) (P : DecoderParams) (td : TD)
    (emb : T3 ℚ) (dt : String) (temp : Option ℚ) (cr : Bool) (fuel : Nat) :
    forward E P td emb dt temp none cr fuel
      = forward E P td emb dt temp (some 0) cr fuel := rfl

/-! ### Structure of the decode loop -/

/-- The action `decode_probs` selects at one step (the composite the loop body
feeds to the environment). -/
def chosenAction (E : Ext) (C : PrecomputedCache) (decode_type : String)
    (softmax_temp : Option ℚ) (num_starts : Nat) (td : TD) : Nat → Nat :=
  E.decodeProbs (t2map E.expQ (getLogP E C td softmax_temp num_starts).1)
    (getLogP E C td softmax_temp num_starts).2 decode_type

/-- The state transition one loop iteration induces on `td`. -/
def tdNext (E : Ext) (C : PrecomputedCache) (decode_type : String) (softmax_temp : Option ℚ)
    (num_starts : Nat) (td : TD) : TD :=
  E.step (td.setAction (chosenAction E C decode_type softmax_temp num_starts td))

theorem iterate_loopBody_cached (E : Ext) (dt : String) (temp : Option ℚ) (n k : Nat)
    (st : LoopSt) : ((loopBody E dt temp n)^[k] st).cached = st.cached := by
  induction k generalizing st with
  | zero => rfl
  | succ k ih =>
    rw [Function.iterate_succ_apply]
    exact (ih _).trans rfl

theorem iterate_loopBody_td (E : Ext) (dt : String) (temp : Option ℚ) (n k : Nat)
    (st : LoopSt) :
    ((loopBody E dt temp n)^[k] st).td = (tdNext E st.cached dt temp n)^[k] st.td := by
  induction k with
  | zero => rfl
  | succ k ih =>
    rw [Function.iterate_succ_apply', Function.iterate_succ_apply']
    simp only [loopBody, tdNext, chosenAction]
    rw [iterate_loopBody_cached, ih]

theorem iterate_loopBody_outputs (E : Ext) (dt : String) (temp : Option ℚ) (n k : Nat)
    (st : LoopSt) :
    ((loopBody E dt temp n)^[k] st).outputs
      = st.outputs ++ (List.range k).map
          (fun j => (getLogP E st.cached ((tdNext E st.cached dt temp n)^[j] st.td) temp n).1) := by
  induction k with
  | zero => simp
  | succ k ih =>
    rw [Function.iterate_succ_apply']
    simp only [loopBody]
    rw [ih, iterate_loopBody_cached, iterate_loopBody_td, List.range_succ, List.map_append,
      List.append_assoc]
    rfl

theorem iterate_loopBody_actions (E : Ext) (dt : String) (temp : Option ℚ) (n k : Nat)
    (st : LoopSt) :
    ((loopBody E dt temp n)^[k] st).actions
      = st.actions ++ (List.range k).map
          (fun j => chosenAction E st.cached dt temp n ((tdNext E st.cached dt temp n)^[j] st.td)) := by
  induction k with
  | zero => simp
  | succ k ih =>
    rw [Function.iterate_succ_apply']
    simp only [loopBody]
    rw [ih, iterate_loopBody_cached, iterate_loopBody_td, List.range_succ, List.map_append,
      List.append_assoc]
    rfl

theorem decodeLoop_some (E : Ext) (dt : String) (temp : Option ℚ) (n : Nat) :
    ∀ (fuel : Nat) (st st' : LoopSt), decodeLoop E dt temp n fuel st = some st' →
      ∃ m, loopIters E dt temp n fuel st = some m
        ∧ st' = (loopBody E dt temp n)^[m] st ∧ allDone st'.td = true := by
  intro fuel
  induction fuel with
  | zero =>
    intro st st' h
    unfold decodeLoop at h
    by_cases hd : allDone st.td = true
    · rw [if_pos hd] at h
      refine ⟨0, ?_, ?_, ?_⟩
      · unfold loopIters; rw [if_pos hd]
      · rw [Function.iterate_zero_apply]; exact (Option.some.inj h).symm
      · rw [← Option.some.inj h]; exact hd
    · rw [if_neg hd] at h; cases h
  | succ f ih =>
    intro st st' h
    unfold decodeLoop at h
    by_cases hd : allDone st.td = true
    · rw [if_pos hd] at h
      refine ⟨0, ?_, ?_, ?_⟩
      · unfold loopIters; rw [if_pos hd]
      · rw [Function.iterate_zero_apply]; exact (Option.some.inj h).symm
      · rw [← Option.some.inj h]; exact hd
    · rw [if_neg hd] at h
      obtain ⟨m, hm, hst, hdone⟩ := ih _ _ h
      refine ⟨m + 1, ?_, ?_, hdone⟩
      · unfold loopIters; rw [if_neg hd, hm]; rfl
      · rw [hst, ← Function.iterate_succ_apply]

theorem initialState_cached (E : Ext) (P : DecoderParams) (td : TD) (emb : T3 ℚ)
    (dt : String) (n : Nat) : (initialState E P td emb dt n).cached = _precompute P emb n := by
  unfold initialState
  split <;> rfl

theorem initialState_seeded (E : Ext) (P : DecoderParams) (td : TD) (emb : T3 ℚ)
    (dt : String) (n : Nat) (h : (decide (1 < n) || strContains dt "multistart") = true) :
    initialState E P td emb dt n
      = ⟨_precompute P emb n,
         E.step ((batchifyTD td n).setAction (E.selectStartNodes td n)),
         [⟨(E.step ((batchifyTD td n).setAction (E.selectStartNodes td n))).batch,
           (E.step ((batchifyTD td n).setAction (E.selectStartNodes td n))).nodes,
           fun _ _ => 0⟩],
         [E.selectStartNodes td n]⟩ := by
  unfold initialState
  rw [if_pos h]

theorem initialState_lengths (E : Ext) (P : DecoderParams) (td : TD) (emb : T3 ℚ)
    (dt : String) (n : Nat) :
    (initialState E P td emb dt n).outputs.length
      = (initialState E P td emb dt n).actions.length := by
  unfold initialState
  split <;> rfl

/-- C7: the cache produced by `_precompute` is never mutated during the decode
loop: the body of the loop (one `_get_log_p` call, one action selection, one
environment transition, one trace append) carries the cache through unchanged,
so after any number of steps of one decode call the cache's five tensors are
the ones computed up front, bit for bit — `_get_log_p` only reads them,
combining them additively into fresh tensors. -/
theorem C7_cache_never_mutated (E : Ext) (dt : String) (temp : Option ℚ) (n k : Nat)
    (st : LoopSt) :
    (loopBody E dt temp n st).cached = st.cached
      ∧ ((loopBody E dt temp n)^[k] st).cached = st.cached :=
  ⟨rfl, iterate_loopBody_cached E dt temp n k st⟩

/-- Destructuring a successful `forward` call into its loop run. -/
theorem forward_ok_elim (E : Ext) (P : DecoderParams) (td : TD) (emb : T3 ℚ) (dt : String)
    (temp : Option ℚ) (ns? : Option Nat) (cr : Bool) (fuel : Nat) (O : T3 ℚ) (A : T2 Nat)
    (T : TD) (h : forward E P td emb dt temp ns? cr fuel = .ok O A T) :
    ∃ st, decodeLoop E dt temp (ns?.getD 0) fuel
        (initialState E P td emb dt (ns?.getD 0)) = some st
      ∧ O = stackOutputs st.outputs ∧ A = stackActions st.td.batch st.actions := by
  unfold forward at h
  by_cases hc : (strContains dt "multistart" && decide (ns?.getD 0 ≤ 1)) = true
  · rw [if_pos hc] at h; cases h
  · rw [if_neg hc] at h
    cases hdl : decodeLoop E dt temp (ns?.getD 0) fuel (initialState E P td emb dt (ns?.getD 0)) with
    | none => rw [hdl] at h; cases h
    | some st =>
      rw [hdl] at h
      injection h with h1 h2 h3
      exact ⟨st, rfl, h1.symm, h2.symm⟩

/-! ### A concrete completed run, used by witnesses -/

/-- A complete multi-start toy call (the toy environment finishes every
trajectory at the first transition, so the loop body never runs). -/
def toyRun : FwdResult :=
  forward toyE toyP toyTD toyEmb "greedy_multistart" none (some 2) false 4

/-- The stacked log-probabilities of `toyRun`. -/
def toyRunO : T3 ℚ :=
  match toyRun with
  | .ok o _ _ => o
  | _ => ⟨0, 0, 0, fun _ _ _ => 0⟩

/-- The stacked actions of `toyRun`. -/
def toyRunA : T2 Nat :=
  match toyRun with
  | .ok _ a _ => a
  | _ => ⟨0, 0, fun _ _ => 0⟩

/-- The final state of `toyRun`. -/
def toyRunT : TD :=
  match toyRun with
  | .ok _ _ t => t
  | _ => toyTD

theorem toyRun_ok : toyRun = .ok toyRunO toyRunA toyRunT := rfl

/-- C4: whenever `forward` enters the multi-start seeding branch and completes,
step 0 of the stacked trajectory is the seed action chosen by the seeding
policy together with a zero log-probability entry (probability 1), whose shape
is that of the state obtained by applying the seed action as an environment
transition on the replicated state; stacking with the per-step tensors of the
main loop succeeds (the two stacks exist, agree in length, and the trace is
nonempty) and preserves the zero value. -/
theorem C4_seed_step_zero (E : Ext) (P : DecoderParams) (td : TD) (emb : T3 ℚ)
    (dt : String) (temp : Option ℚ) (ns? : Option Nat) (cr : Bool) (fuel : Nat)
    (O : T3 ℚ) (A : T2 Nat) (T : TD)
    (hseed : (decide (1 < ns?.getD 0) || strContains dt "multistart") = true)
    (hok : forward E P td emb dt temp ns? cr fuel = .ok O A T) :
    (∀ b l, O.ent b 0 l = 0)
      ∧ (∀ b, A.ent b 0 = E.selectStartNodes td (ns?.getD 0) b)
      ∧ O.d0 = (E.step ((batchifyTD td (ns?.getD 0)).setAction
          (E.selectStartNodes td (ns?.getD 0)))).batch
      ∧ O.d2 = (E.step ((batchifyTD td (ns?.getD 0)).setAction
          (E.selectStartNodes td (ns?.getD 0)))).nodes
      ∧ 1 ≤ O.d1 ∧ O.d1 = A.d1 := by
  obtain ⟨st, hdl, hO, hA⟩ := forward_ok_elim E P td emb dt temp ns? cr fuel O A T hok
  obtain ⟨m, hm, hst, hdone⟩ := decodeLoop_some E dt temp (ns?.getD 0) fuel _ st hdl
  rw [initialState_seeded E P td emb dt (ns?.getD 0) hseed] at hst
  have ho0 : st.outputs.getD 0 defaultT2
      = ⟨(E.step ((batchifyTD td (ns?.getD 0)).setAction
            (E.selectStartNodes td (ns?.getD 0)))).batch,
         (E.step ((batchifyTD td (ns?.getD 0)).setAction
            (E.selectStartNodes td (ns?.getD 0)))).nodes,
         fun _ _ => 0⟩ := by
    rw [hst, iterate_loopBody_outputs]
    rfl
  have hoh : st.outputs.headD defaultT2
      = ⟨(E.step ((batchifyTD td (ns?.getD 0)).setAction
            (E.selectStartNodes td (ns?.getD 0)))).batch,
         (E.step ((batchifyTD td (ns?.getD 0)).setAction
            (E.selectStartNodes td (ns?.getD 0)))).nodes,
         fun _ _ => 0⟩ := by
    rw [hst, iterate_loopBody_outputs]
    rfl
  have hol : st.outputs.length = 1 + m := by
    rw [hst, iterate_loopBody_outputs]
    simp
    omega
  have ha0 : st.actions.getD 0 (fun _ => 0) = E.selectStartNodes td (ns?.getD 0) := by
    rw [hst, iterate_loopBody_actions]
    rfl
  have hal : st.actions.length = 1 + m := by
    rw [hst, iterate_loopBody_actions]
    simp
    omega
  refine ⟨?_, ?_, ?_, ?_, ?_, ?_⟩
  · intro b l
    rw [hO]
    show (st.outputs.getD 0 defaultT2).ent b l = 0
    rw [ho0]
  · intro b
    rw [hA]
    show st.actions.getD 0 (fun _ => 0) b = _
    rw [ha0]
  · rw [hO]; show (st.outputs.headD defaultT2).d0 = _; rw [hoh]
  · rw [hO]; show (st.outputs.headD defaultT2).d1 = _; rw [hoh]
  · rw [hO]; show 1 ≤ st.outputs.length; rw [hol]; omega
  · rw [hO, hA]
    show st.outputs.length = st.actions.length
    rw [hol, hal]

/-- C4 witness at a concrete completed multi-start run. -/
theorem C4_seed_step_zero_witness :
    toyRunO.ent 0 0 0 = 0 ∧ toyRunA.ent 1 0 = 1 := by
  have h := C4_seed_step_zero toyE toyP toyTD toyEmb "greedy_multistart" none (some 2)
    false 4 toyRunO toyRunA toyRunT (by decide) toyRun_ok
  refine ⟨h.1 0 0, ?_⟩
  have h2 := h.2.1 1
  simpa [toyE, toyTD] using h2

theorem getD_range_map {α : Type} (m k : Nat) (f : Nat → α) (d : α) (hk : k < m) :
    ((List.range m).map f).getD k d = f k := by
  have hk2 : k < ((List.range m).map f).length := by simpa using hk
  rw [List.getD_eq_getElem _ _ hk2, List.getElem_map, List.getElem_range]

/-- C5: for a call that completes with expansion factor `k > 1`, the working
state after the seeding stage has batch size `k` times the original batch size
(given the environment's documented contract that a transition preserves the
batch extent), and — given the seeding policy's documented contract of one
distinct starting candidate per rollout — the `k` starting actions recorded at
step 0 for the `k` rollouts of each original instance are pairwise distinct. -/
theorem C5_seeding_expansion_and_distinct (E : Ext) (P : DecoderParams) (td : TD)
    (emb : T3 ℚ) (dt : String) (temp : Option ℚ) (cr : Bool) (fuel k : Nat)
    (O : T3 ℚ) (A : T2 Nat) (T : TD) (hk : 1 < k)
    (hstep : ∀ t, (E.step t).batch = t.batch)
    (hsel : ∀ b s1 s2, b < td.batch → s1 < k → s2 < k → s1 ≠ s2 →
      E.selectStartNodes td k (s1 * td.batch + b) ≠ E.selectStartNodes td k (s2 * td.batch + b))
    (hok : forward E P td emb dt temp (some k) cr fuel = .ok O A T) :
    (E.step ((batchifyTD td k).setAction (E.selectStartNodes td k))).batch = k * td.batch
      ∧ ∀ b s1 s2, b < td.batch → s1 < k → s2 < k → s1 ≠ s2 →
          A.ent (s1 * td.batch + b) 0 ≠ A.ent (s2 * td.batch + b) 0 := by
  refine ⟨?_, ?_⟩
  · rw [hstep]
    show (batchifyTD td k).batch = k * td.batch
    unfold batchifyTD
    rw [if_neg (by omega)]
  · obtain ⟨st, hdl, hO, hA⟩ := forward_ok_elim E P td emb dt temp (some k) cr fuel O A T hok
    obtain ⟨m, hm, hst, hdone⟩ := decodeLoop_some E dt temp ((some k).getD 0) fuel _ st hdl
    have hseed : (decide (1 < (some k).getD 0) || strContains dt "multistart") = true := by
      simp [decide_eq_true hk]
    rw [initialState_seeded E P td emb dt ((some k).getD 0) hseed] at hst
    have ha0 : st.actions.getD 0 (fun _ => 0) = E.selectStartNodes td ((some k).getD 0) := by
      rw [hst, iterate_loopBody_actions]
      rfl
    intro b s1 s2 hbb h1 h2 hne
    rw [hA]
    show st.actions.getD 0 (fun _ => 0) (s1 * td.batch + b)
      ≠ st.actions.getD 0 (fun _ => 0) (s2 * td.batch + b)
    rw [ha0]
    exact hsel b s1 s2 hbb h1 h2 hne

/-- C5 witness: in the completed toy multi-start run with `k = 2` and one
original instance, the two recorded starting actions differ. -/
theorem C5_seeding_expansion_and_distinct_witness :
    (1 : Nat) < 2 ∧ toyRunA.ent 0 0 ≠ toyRunA.ent 1 0 := by
  refine ⟨by decide, ?_⟩
  have hsel : ∀ b s1 s2, b < toyTD.batch → s1 < 2 → s2 < 2 → s1 ≠ s2 →
      toyE.selectStartNodes toyTD 2 (s1 * toyTD.batch + b)
        ≠ toyE.selectStartNodes toyTD 2 (s2 * toyTD.batch + b) := by
    intro b s1 s2 hb h1 h2 hne
    simp only [toyE, toyTD]
    omega
  have h := C5_seeding_expansion_and_distinct toyE toyP toyTD toyEmb "greedy_multistart"
    none false 4 2 toyRunO toyRunA toyRunT (by decide) (fun _ => rfl) hsel toyRun_ok
  have h2 := h.2 0 0 1 (by decide) (by decide) (by decide) (by decide)
  simpa [toyTD] using h2

/-- C9 (amended): for every completed `forward` call, the two stacked tensors
are ordered by step index along dimension 1 and have a common length along it
equal to the number of loop iterations executed plus the number of seed
entries (one if the multi-start seeding branch ran, zero otherwise); entry
`seedCount + k` of the stacked trace is exactly the score tensor and the
action selected and applied at loop iteration `k`, in order. -/
theorem C9_trace_structure (E : Ext) (P : DecoderParams) (td : TD) (emb : T3 ℚ)
    (dt : String) (temp : Option ℚ) (ns? : Option Nat) (cr : Bool) (fuel m : Nat)
    (O : T3 ℚ) (A : T2 Nat) (T : TD)
    (hok : forward E P td emb dt temp ns? cr fuel = .ok O A T)
    (hm : loopIters E dt temp (ns?.getD 0) fuel
      (initialState E P td emb dt (ns?.getD 0)) = some m) :
    O.d1 = (initialState E P td emb dt (ns?.getD 0)).outputs.length + m
      ∧ A.d1 = (initialState E P td emb dt (ns?.getD 0)).actions.length + m
      ∧ (initialState E P td emb dt (ns?.getD 0)).outputs.length
          = (initialState E P td emb dt (ns?.getD 0)).actions.length
      ∧ (∀ k b l, k < m →
          O.ent b ((initialState E P td emb dt (ns?.getD 0)).outputs.length + k) l
            = (getLogP E (_precompute P emb (ns?.getD 0))
                ((tdNext E (_precompute P emb (ns?.getD 0)) dt temp (ns?.getD 0))^[k]
                  (initialState E P td emb dt (ns?.getD 0)).td) temp (ns?.getD 0)).1.ent b l)
      ∧ (∀ k b, k < m →
          A.ent b ((initialState E P td emb dt (ns?.getD 0)).actions.length + k)
            = chosenAction E (_precompute P emb (ns?.getD 0)) dt temp (ns?.getD 0)
                ((tdNext E (_precompute P emb (ns?.getD 0)) dt temp (ns?.getD 0))^[k]
                  (initialState E P td emb dt (ns?.getD 0)).td) b) := by
  obtain ⟨st, hdl, hO, hA⟩ := forward_ok_elim E P td emb dt temp ns? cr fuel O A T hok
  obtain ⟨m0, hm0, hst, hdone⟩ := decodeLoop_some E dt temp (ns?.getD 0) fuel _ st hdl
  have hme : m0 = m := Option.some.inj (hm0.symm.trans hm)
  rw [hme] at hst
  have ho := iterate_loopBody_outputs E dt temp (ns?.getD 0) m
    (initialState E P td emb dt (ns?.getD 0))
  have ha := iterate_loopBody_actions E dt temp (ns?.getD 0) m
    (initialState E P td emb dt (ns?.getD 0))
  rw [← hst, initialState_cached] at ho ha
  refine ⟨?_, ?_, initialState_lengths E P td emb dt (ns?.getD 0), ?_, ?_⟩
  · rw [hO]
    show st.outputs.length = _
    rw [ho]
    simp
  · rw [hA]
    show st.actions.length = _
    rw [ha]
    simp
  · intro k b l hk
    rw [hO]
    show (st.outputs.getD ((initialState E P td emb dt (ns?.getD 0)).outputs.length + k)
      defaultT2).ent b l = _
    rw [ho, List.getD_append_right _ _ _ _ (Nat.le_add_right _ _), Nat.add_sub_cancel_left,
      getD_range_map _ _ _ _ hk]
  · intro k b hk
    rw [hA]
    show st.actions.getD ((initialState E P td emb dt (ns?.getD 0)).actions.length + k)
      (fun _ => 0) b = _
    rw [ha, List.getD_append_right _ _ _ _ (Nat.le_add_right _ _), Nat.add_sub_cancel_left,
      getD_range_map _ _ _ _ hk]

/-- C9 witness: in the completed toy multi-start run zero loop iterations ran,
and both stacked tensors have length `1 + 0` along dimension 1. -/
theorem C9_trace_structure_witness : toyRunO.d1 = 1 ∧ toyRunA.d1 = 1 := by
  have h := C9_trace_structure toyE toyP toyTD toyEmb "greedy_multistart" none (some 2)
    false 4 0 toyRunO toyRunA toyRunT toyRun_ok (by decide)
  exact ⟨by rw [h.1]; decide, by rw [h.2.1]; decide⟩

/-- Projection: the length along dimension 1 of the stacked log-probability
tensor of a successful `forward` result. -/
def fwdOutD1 : FwdResult → Nat
  | .ok o _ _ => o.d1
  | _ => 0

/-- C9 counterexample: the toy multi-start call completes after zero iterations
of the decoding loop (the seed transition already finishes every trajectory),
yet the stacked trajectory has length 1, not 0 — the seed entry recorded
before the loop makes the stacked length exceed the number of loop iterations
executed, contradicting the claim as stated. -/
theorem C9_counterexample_seed_entry :
    loopIters toyE "greedy_multistart" none 2 4
        (initialState toyE toyP toyTD toyEmb "greedy_multistart" 2) = some 0
      ∧ fwdOutD1 toyRun = 1 := by
  constructor
  · decide
  · decide

/-- C6: with expansion factor 0 or 1, no batch expansion happens anywhere:
the five cache tensors of `_precompute` keep the embedding's batch extent, the
unbatchified view keeps the state's batch extent (with a singleton starts
axis), every `_get_log_p` call returns scores and mask whose batch extent is
the state's batch extent (given the documented shape contracts of the context
builder and of the attention unit), and the per-step state transition keeps
the batch extent across every step of the decode (given that the environment's
transition preserves it). -/
theorem C6_no_batch_expansion (E : Ext) (P : DecoderParams) (emb : T3 ℚ) (dt : String)
    (temp : Option ℚ) (n : Nat) (hn : n ≤ 1)
    (hctx : ∀ ne tdU, (E.context ne tdU).d0 = tdU.batch)
    (hattn : ∀ q k v lk msk t, (E.attn q k v lk msk t).d0 = q.d0)
    (hstep : ∀ t, (E.step t).batch = t.batch) :
    ((_precompute P emb n).node_embeddings.d0 = emb.d0
        ∧ (_precompute P emb n).graph_context.d0 = emb.d0
        ∧ (_precompute P emb n).glimpse_key.d0 = emb.d0
        ∧ (_precompute P emb n).glimpse_val.d0 = emb.d0
        ∧ (_precompute P emb n).logit_key.d0 = emb.d0)
      ∧ (∀ td : TD, (unbatchifyTD td n).batch = td.batch ∧ (unbatchifyTD td n).starts = 1)
      ∧ (∀ (C : PrecomputedCache) (td : TD),
          ((getLogP E C td temp n).1).d0 = td.batch
            ∧ ((getLogP E C td temp n).2).d0 = td.batch)
      ∧ (∀ (C : PrecomputedCache) (td : TD) (k : Nat),
          ((tdNext E C dt temp n)^[k] td).batch = td.batch) := by
  have hnn : ¬ 1 < n := by omega
  refine ⟨⟨rfl, ?_, rfl, rfl, rfl⟩, ?_, ?_, ?_⟩
  · show (unbatchifyT2 (batchifyT2 _ n) n).d0 = emb.d0
    unfold unbatchifyT2 batchifyT2
    rw [if_pos hn, if_pos hn]
    rfl
  · intro td
    unfold unbatchifyTD
    rw [if_pos hn]
    exact ⟨rfl, rfl⟩
  · intro C td
    constructor
    · unfold getLogP
      rw [if_neg hnn]
      show ((getLogPPre E C td temp n).1).d0 = td.batch
      simp only [getLogPPre]
      rw [hattn]
      simp only [t3add]
      rw [hctx]
      simp [unbatchifyTD, hn]
    · unfold getLogP
      rw [if_neg hnn]
      show ((getLogPPre E C td temp n).2).d0 = td.batch
      simp only [getLogPPre]
      simp [unbatchifyTD, hn]
  · intro C td k
    induction k with
    | zero => rfl
    | succ k ih =>
      rw [Function.iterate_succ_apply']
      show (E.step _).batch = td.batch
      rw [hstep]
      exact ih

/-- C6 witness at concrete shape-respecting collaborators and `num_starts = 0`. -/
theorem C6_no_batch_expansion_witness :
    ((getLogP toyE (_precompute toyP toyEmb 0) toyTD none 0).1).d0 = 1
      ∧ ((getLogP toyE (_precompute toyP toyEmb 0) toyTD none 0).2).d0 = 1
      ∧ (_precompute toyP toyEmb 0).graph_context.d0 = 1 := by
  have h := C6_no_batch_expansion toyE toyP toyEmb "greedy" none 0 (by decide)
    (fun _ _ => rfl) (fun _ _ _ _ _ _ => rfl) (fun _ => rfl)
  exact ⟨(h.2.2.1 (_precompute toyP toyEmb 0) toyTD).1,
    (h.2.2.1 (_precompute toyP toyEmb 0) toyTD).2, h.1.2.1⟩

/-- C8: `_precompute` applies the single bias-free linear projection to the
node embeddings and splits it into three equal-width chunks along the feature
axis (glimpse key at offset 0, glimpse value at offset `D`, logit key at
offset `2*D`, each of width `D`), and computes the graph context by averaging
the node embeddings over the node axis and applying the bias-free context
projection, yielding the same `D`-dimensional context vector for every rollout
copy of an instance. -/
theorem C8_precompute_projection_structure (P : DecoderParams) (emb : T3 ℚ)
    (n b nd d o s : Nat) (hb : b < emb.d0) :
    ((project_node_embeddings P emb).d2 = 3 * P.embedding_dim
        ∧ (project_node_embeddings P emb).ent b nd o
            = Finset.sum (Finset.range P.embedding_dim) (fun j => P.Wnode o j * emb.ent b nd j))
      ∧ ((_precompute P emb n).glimpse_key.d2 = P.embedding_dim
          ∧ (_precompute P emb n).glimpse_val.d2 = P.embedding_dim
          ∧ (_precompute P emb n).logit_key.d2 = P.embedding_dim)
      ∧ ((_precompute P emb n).glimpse_key.ent b nd d
            = (project_node_embeddings P emb).ent b nd d
          ∧ (_precompute P emb n).glimpse_val.ent b nd d
            = (project_node_embeddings P emb).ent b nd (P.embedding_dim + d)
          ∧ (_precompute P emb n).logit_key.ent b nd d
            = (project_node_embeddings P emb).ent b nd (2 * P.embedding_dim + d))
      ∧ ((_precompute P emb n).graph_context.d2 = P.embedding_dim
          ∧ (_precompute P emb n).graph_context.ent b s d
            = (project_fixed_context P (meanNodes emb)).ent b d)
      ∧ (meanNodes emb).ent b d
          = (Finset.sum (Finset.range emb.d1) (fun j => emb.ent b j d)) / (emb.d1 : ℚ) := by
  refine ⟨⟨rfl, rfl⟩, ⟨rfl, rfl, rfl⟩, ⟨?_, ?_, rfl⟩, ⟨?_, ?_⟩, rfl⟩
  · show (project_node_embeddings P emb).ent b nd (0 * P.embedding_dim + d) = _
    rw [Nat.zero_mul, Nat.zero_add]
  · show (project_node_embeddings P emb).ent b nd (1 * P.embedding_dim + d) = _
    rw [Nat.one_mul]
  · by_cases hn : n ≤ 1 <;>
      simp [_precompute, unbatchifyT2, batchifyT2, hn, project_fixed_context]
  · by_cases hn : n ≤ 1
    · simp [_precompute, unbatchifyT2, batchifyT2, hn]
    · have hnz : 0 < n := by omega
      simp only [_precompute, unbatchifyT2, batchifyT2, if_neg hn]
      rw [Nat.mul_div_cancel_left _ hnz]
      show (project_fixed_context P (meanNodes emb)).ent
        ((s * (project_fixed_context P (meanNodes emb)).d0 + b)
          % (project_fixed_context P (meanNodes emb)).d0) d = _
      have hb2 : b < (project_fixed_context P (meanNodes emb)).d0 := hb
      rw [foldIdx_mod _ s b hb2]

/-- C8 witness at a concrete input with expansion factor 2. -/
theorem C8_precompute_projection_structure_witness :
    0 < toyEmb.d0
      ∧ (_precompute toyP toyEmb 2).graph_context.ent 0 1 0
          = (project_fixed_context toyP (meanNodes toyEmb)).ent 0 0
      ∧ (_precompute toyP toyEmb 2).glimpse_val.ent 0 0 0
          = (project_node_embeddings toyP toyEmb).ent 0 0 1 := by
  have h := C8_precompute_projection_structure toyP toyEmb 2 0 0 0 0 1 (by decide)
  exact ⟨by decide, h.2.2.2.1.2, h.2.2.1.2.1⟩

end AMDecoder
